import Mathlib

/-!
Verification of `src/penn_chime/models.py` (the CHIME SIR projection core).

The Python source is shallowly embedded over `ℝ` (floats are modelled by
exact real arithmetic; a float `NaN`/missing value in a pandas series is
modelled by `Option ℝ` with `none` for the undefined entries).  Pandas
dataframes are modelled column-wise: positional `List`s stand for series
indexed by the default `RangeIndex`, so a label lookup `.loc[k]` and a
positional lookup `.values[k]` both become list indexing.  The `day` and
`date` columns only relabel rows and are not modelled.
-/

namespace PennChime

noncomputable section

/-- `np.log2`, as a partial real function: `some (log2 x)` on positive
arguments; a non-positive argument (where the float code silently yields
`NaN` or `-inf` plus a runtime warning, never an exception) is `none`. -/
def np_log2 (x : ℝ) : Option ℝ :=
  if 0 < x then some (Real.logb 2 x) else none

/-- `np.ceil`, lifted over a possibly-undefined entry (`np.ceil` maps `NaN`
to `NaN`). -/
def np_ceil : Option ℝ → Option ℝ
  | some x => some ((⌈x⌉ : ℤ) : ℝ)
  | none => none

/-- models.py `get_growth_rate`: 2^(1/doubling_time) − 1, with a defined
floor of 0 for an absent or zero doubling time. -/
def get_growth_rate (doubling_time : Option ℝ) : ℝ :=
  match doubling_time with
  | none => 0
  | some dt => if dt = 0 then 0 else (2 : ℝ) ^ ((1 : ℝ) / dt) - 1

/-- models.py `get_beta`. -/
def get_beta (intrinsic_growth_rate gamma susceptible relative_contact_rate : ℝ) : ℝ :=
  (intrinsic_growth_rate + gamma) / susceptible * (1 - relative_contact_rate)

/-- models.py `sir`: one SIR time step followed by the population-conserving
rescale (the commented-out clamping of negative values is absent from the
live code and so from this embedding). -/
def sir (s i r beta gamma n : ℝ) : ℝ × ℝ × ℝ :=
  let s_n := -beta * s * i + s
  let i_n := beta * s * i - gamma * i + i
  let r_n := gamma * i + r
  let scale := n / (s_n + i_n + r_n)
  (s_n * scale, i_n * scale, r_n * scale)

/-- One row of the raw trajectory dataframe: the tuple
`(day, susceptible, infected, recovered)` yielded by `gen_sir`. -/
structure SirRow where
  day : ℤ
  susceptible : ℝ
  infected : ℝ
  recovered : ℝ

/-- The loop of models.py `gen_sir`: `k` remaining iterations of
`for _ in range(n_days)` (each yields, then steps), then the final yield. -/
def gen_sir_from (beta gamma n : ℝ) : ℕ → ℤ → ℝ → ℝ → ℝ → List SirRow
  | 0, d, s, i, r => [⟨d, s, i, r⟩]
  | k + 1, d, s, i, r =>
    ⟨d, s, i, r⟩ ::
      (match sir s i r beta gamma n with
       | (s2, i2, r2) => gen_sir_from beta gamma n k (d + 1) s2 i2 r2)

/-- models.py `gen_sir`: the total `n` is fixed from the starting state, and
`range(n_days)` of a negative `n_days` is empty (`Int.toNat`). -/
def gen_sir (s i r beta gamma : ℝ) (n_days : ℤ) (i_day : ℤ) : List SirRow :=
  gen_sir_from beta gamma (s + i + r) n_days.toNat i_day s i r

/-- models.py `sim_sir_df`: the dataframe is the yielded rows themselves. -/
def sim_sir_df (s i r beta gamma : ℝ) (n_days : ℤ) (i_day : ℤ) : List SirRow :=
  gen_sir s i r beta gamma n_days i_day

/-- NaN-propagating subtraction of two possibly-undefined entries. -/
def sub? : Option ℝ → Option ℝ → Option ℝ
  | some a, some b => some (a - b)
  | _, _ => none

/-- Index-aligned subtraction of two series: pandas arithmetic aligns on the
union of the two indexes, and a position missing from either side yields
NaN. -/
def alignSub (a b : List (Option ℝ)) : List (Option ℝ) :=
  (List.range (max a.length b.length)).map fun k => sub? (a.getD k none) (b.getD k none)

/-- pandas `shift(n)`: same index, position `k` holds the value from
position `k − n`; the first `n` positions become NaN. -/
def shift (n : ℕ) (xs : List (Option ℝ)) : List (Option ℝ) :=
  (List.range xs.length).map fun k => if k < n then none else xs.getD (k - n) none

/-- Python slicing `xs.iloc[:-n]`: drops the last `n` rows; `n = 0` yields
the empty series (`xs[:-0]` is `xs[:0]`). -/
def ilocDropLast (n : ℕ) (xs : List (Option ℝ)) : List (Option ℝ) :=
  if n = 0 then [] else xs.take (xs.length - n)

/-- pandas `cumsum` with its default `skipna=True`, running from `acc`: the
running sum over the defined entries; a NaN entry stays NaN and does not
reset the sum. -/
def cumsumFrom (acc : ℝ) : List (Option ℝ) → List (Option ℝ)
  | [] => []
  | none :: xs => none :: cumsumFrom acc xs
  | some x :: xs => some (acc + x) :: cumsumFrom (acc + x) xs

/-- pandas `Series.cumsum()`. -/
def cumsum (xs : List (Option ℝ)) : List (Option ℝ) := cumsumFrom 0 xs

/-- pandas `fillna(0)`. -/
def fillna0 (xs : List (Option ℝ)) : List (Option ℝ) := xs.map fun x => some (x.getD 0)

/-- models.py `build_dispositions_df`, for one disposition category:
patients = infected + recovered, scaled by the category's rate and the
market share (the `day` and `date` columns are not modelled; each value
column of the frame is computed independently like this one). -/
def build_dispositions_df (raw : List SirRow) (rate market_share : ℝ) : List (Option ℝ) :=
  raw.map fun row => some ((row.infected + row.recovered) * rate * market_share)

/-- models.py `build_admits_df`, for one category column:
`dispositions_df.iloc[:-1, :] - dispositions_df.shift(1)` under pandas
index alignment (the `day`/`date` columns are then restored from
`dispositions_df` in the source and are not modelled). -/
def build_admits_df (disp : List (Option ℝ)) : List (Option ℝ) :=
  alignSub (ilocDropLast 1 disp) (shift 1 disp)

/-- models.py `build_census_df`, for one category with length of stay `los`:
`(admits[key].cumsum().iloc[:-los] - admits[key].cumsum().shift(los).fillna(0)).apply(np.ceil)`,
re-aligned to the frame's full index by the `pd.DataFrame` constructor. -/
def build_census_df (admits : List (Option ℝ)) (los : ℕ) : List (Option ℝ) :=
  (alignSub (ilocDropLast los (cumsum admits)) (fillna0 (shift los (cumsum admits)))).map np_ceil

/-- Accumulator loop behind pandas `Series.argmin`: the running best is the
first position carrying the smallest defined value seen so far (a new value
replaces the best only when strictly smaller, so exact ties keep the
earlier position); NaN entries are skipped. -/
def argminAux : List (Option ℝ) → ℕ → Option (ℕ × ℝ) → Option (ℕ × ℝ)
  | [], _, best => best
  | none :: xs, k, best => argminAux xs (k + 1) best
  | some x :: xs, k, best =>
    match best with
    | none => argminAux xs (k + 1) (some (k, x))
    | some (j, b) =>
      if x < b then argminAux xs (k + 1) (some (k, x))
      else argminAux xs (k + 1) (some (j, b))

/-- pandas `Series.argmin` with its default `skipna=True`: the position of
the smallest defined entry, the first one on exact ties; −1 when every
entry is NaN (the pandas-1.x all-NaN result). -/
def argmin (xs : List (Option ℝ)) : ℤ :=
  match argminAux xs 0 none with
  | none => -1
  | some jx => (jx.1 : ℤ)

/-- models.py `get_argmin_ds`: argmin over the squared-error series
`(census_df.hospitalized - current_hospitalized) ** 2.0`. -/
def get_argmin_ds (census_hosp : List (Option ℝ)) (current_hospitalized : ℝ) : ℤ :=
  argmin (census_hosp.map (Option.map fun h => (h - current_hospitalized) ^ 2))

/-- models.py `get_loss` (and the identical `SimSirModel.get_loss`):
squared error between the census hospitalized value labelled
`n_days_since` (`.loc` on the default RangeIndex is positional) and the
observed count; NaN (`none`) when that census entry is undefined. -/
def get_loss (census_hosp : List (Option ℝ)) (current_hospitalized : ℝ)
    (n_days_since : ℤ) : Option ℝ :=
  (census_hosp.getD n_days_since.toNat none).map fun predicted =>
    (current_hospitalized - predicted) ^ 2

/-- numpy integer indexing `xs[j]` with Python's negative-index
wrap-around (reached when the all-NaN argmin −1 is used as an index). -/
def npGet (xs : List ℝ) (j : ℤ) : ℝ :=
  if j < 0 then xs.getD (j + xs.length).toNat 0 else xs.getD j.toNat 0

/-- numpy row indexing `values[j]` on the raw trajectory, with
negative-index wrap-around. -/
def npRow (raw : List SirRow) (j : ℤ) : SirRow :=
  if j < 0 then raw.getD (j + raw.length).toNat ⟨0, 0, 0, 0⟩
  else raw.getD j.toNat ⟨0, 0, 0, 0⟩

/-- `np.linspace start stop num`: `num` evenly spaced samples with both
endpoints included (the step is exactly (stop − start)/(num − 1), which for
the model's grid is the exactly representable 0.5). -/
def linspace (start stop : ℝ) (num : ℕ) : List ℝ :=
  (List.range num).map fun k : ℕ => start + (stop - start) * (k : ℝ) / ((num : ℝ) - 1)

/-- models.py line 121: the calibration grid `np.linspace(1, 15, 29)`. -/
def dts : List ℝ := linspace 1 15 29

/-- The fields of `parameters.Parameters` that models.py reads.  A supplied
first-hospitalization date is modelled by the day difference
`(p.current_date - p.date_first_hospitalized).days`; the `dispositions`
mapping is represented by its `hospitalized` entry (rate, length of stay),
the only category the model's calibration and claims read — every other
category's column is produced independently by the same per-column
transforms (`build_dispositions_df`, `build_admits_df`, `build_census_df`).
`known_infected` only feeds `detection_probability`, which no claim
mentions, so neither is modelled. -/
structure Parameters where
  population : ℝ
  current_hospitalized : ℝ
  market_share : ℝ
  recovered : ℝ
  doubling_time : Option ℝ
  date_first_hospitalized : Option ℤ
  relative_contact_rate : ℝ
  infectious_days : ℝ
  n_days : ℕ
  hospitalized_rate : ℝ
  hospitalized_length_of_stay : ℕ

/-- models.py lines 57–59: the estimated current infected count. -/
def infected_estimate (p : Parameters) : ℝ :=
  p.current_hospitalized / p.market_share / p.hospitalized_rate

/-- models.py line 61. -/
def susceptible0 (p : Parameters) : ℝ := p.population - infected_estimate p

/-- models.py line 69. -/
def gamma0 (p : Parameters) : ℝ := 1 / p.infectious_days

/-- models.py lines 72–76: the contact rate from the supplied doubling
time, discounted by the relative contact rate. -/
def beta0 (p : Parameters) : ℝ :=
  (get_growth_rate p.doubling_time + gamma0 p) / susceptible0 p * (1 - p.relative_contact_rate)

/-- models.py line 79. -/
def r_t0 (p : Parameters) : ℝ := beta0 p / gamma0 p * susceptible0 p

/-- models.py line 83. -/
def r_naught0 (p : Parameters) : ℝ :=
  (get_growth_rate p.doubling_time + gamma0 p) / gamma0 p

/-- models.py lines 84–85: `1.0 / np.log2(beta * susceptible - gamma + 1)`.
The float code has no guard: a non-positive logarithm argument silently
yields NaN (or −inf, whence a −0.0 quotient) with only a runtime warning,
modelled as `none`; no exception is raised. -/
def doubling_time_t0 (p : Parameters) : Option ℝ :=
  (np_log2 (beta0 p * susceptible0 p - gamma0 p + 1)).map fun l => 1 / l

/-- models.py line 98: `self.infected` is overwritten with
`1.0 / p.hospitalized.rate / p.market_share` — the infected count whose
hospitalized share at this market share is a single patient — and this,
not the line-57 estimate, is the infected value every projection starts
from. -/
def seed_infected (p : Parameters) : ℝ := 1 / p.hospitalized_rate / p.market_share

/-- The tables `SimSirModel.run_projection` rebuilds (hospitalized-category
value columns). -/
structure Projection where
  raw_df : List SirRow
  dispositions_hosp : List (Option ℝ)
  admits_hosp : List (Option ℝ)
  census_hosp : List (Option ℝ)

/-- models.py `run_projection`: simulate from the model's current
susceptible/infected state and `p.recovered` over `p.n_days + i_day` steps
starting at day `-i_day`, then pipe the trajectory through the three table
builders. -/
def run_projection (p : Parameters) (susceptible infected beta gamma : ℝ)
    (i_day : ℤ) : Projection :=
  let raw := sim_sir_df susceptible infected p.recovered beta gamma
    ((p.n_days : ℤ) + i_day) (-i_day)
  let disp := build_dispositions_df raw p.hospitalized_rate p.market_share
  let admits := build_admits_df disp
  let census := build_census_df admits p.hospitalized_length_of_stay
  ⟨raw, disp, admits, census⟩

/-- The attributes of the finished `SimSirModel` that the claims read. -/
structure SimSirModel where
  susceptible : ℝ
  infected : ℝ
  recovered : ℝ
  beta : ℝ
  gamma : ℝ
  intrinsic_growth_rate : ℝ
  r_t : ℝ
  r_naught : ℝ
  doubling_time_t : Option ℝ
  i_day : ℤ
  n_days_since : Option ℤ
  doubling_time : Option ℝ
  raw_df : List SirRow
  admits_hosp : List (Option ℝ)
  census_hosp : List (Option ℝ)

/-- models.py lines 103–106: in doubling-time mode `self.beta` is
reassigned to the undiscounted rate — no `1 - relative_contact_rate`
factor — and is never reassigned again in this branch. -/
def beta_dt (p : Parameters) : ℝ :=
  (get_growth_rate p.doubling_time + gamma0 p) / susceptible0 p

/-- models.py line 108: the scanning projection, anchored at day 0. -/
def dt_proj1 (p : Parameters) : Projection :=
  run_projection p (susceptible0 p) (seed_infected p) (beta_dt p) (gamma0 p) 0

/-- models.py line 109: the day whose projected hospitalized census best
matches the observed count. -/
def dt_i_day (p : Parameters) : ℤ :=
  get_argmin_ds (dt_proj1 p).census_hosp p.current_hospitalized

/-- models.py line 110: the final projection, re-anchored at the resolved
day, with `self.beta` unchanged from line 103. -/
def dt_proj2 (p : Parameters) : Projection :=
  run_projection p (susceptible0 p) (seed_infected p) (beta_dt p) (gamma0 p) (dt_i_day p)

/-- models.py lines 100–115: the finished model of the doubling-time
branch (lines 111–113 re-read the state at the resolved day from the final
run's raw trajectory). -/
def dtBranch (p : Parameters) : SimSirModel where
  susceptible := (npRow (dt_proj2 p).raw_df (dt_i_day p)).susceptible
  infected := (npRow (dt_proj2 p).raw_df (dt_i_day p)).infected
  recovered := (npRow (dt_proj2 p).raw_df (dt_i_day p)).recovered
  beta := beta_dt p
  gamma := gamma0 p
  intrinsic_growth_rate := get_growth_rate p.doubling_time
  r_t := r_t0 p
  r_naught := r_naught0 p
  doubling_time_t := doubling_time_t0 p
  i_day := dt_i_day p
  n_days_since := some (dt_i_day p)
  doubling_time := p.doubling_time
  raw_df := (dt_proj2 p).raw_df
  admits_hosp := (dt_proj2 p).admits_hosp
  census_hosp := (dt_proj2 p).census_hosp

/-- models.py lines 124–130: the calibration loop's per-candidate losses
(the relative contact rate is forced to 0.0 for the search). -/
def calibration_losses (p : Parameters) (nds : ℤ) : List (Option ℝ) :=
  dts.map fun i_dt =>
    get_loss (run_projection p (susceptible0 p) (seed_infected p)
        (get_beta (get_growth_rate (some i_dt)) (gamma0 p) (susceptible0 p) 0)
        (gamma0 p) nds).census_hosp
      p.current_hospitalized nds

/-- models.py line 132: `dts[pd.Series(losses).argmin()]`. -/
def fitted_doubling_time (p : Parameters) (nds : ℤ) : ℝ :=
  npGet dts (argmin (calibration_losses p nds))

/-- models.py line 134. -/
def fitted_growth_rate (p : Parameters) (nds : ℤ) : ℝ :=
  get_growth_rate (some (fitted_doubling_time p nds))

/-- models.py line 135. -/
def fitted_beta (p : Parameters) (nds : ℤ) : ℝ :=
  get_beta (fitted_growth_rate p nds) (gamma0 p) (susceptible0 p) 0

/-- models.py line 136: the final projection of the date branch, run with
the beta re-derived from the fitted doubling time. -/
def date_proj (p : Parameters) (nds : ℤ) : Projection :=
  run_projection p (susceptible0 p) (seed_infected p) (fitted_beta p nds) (gamma0 p) nds

/-- models.py lines 117–143: the finished model of the
date-first-hospitalized branch.  Lines 138–143 copy locals back onto the
model: `intrinsic_growth_rate` is the re-derived value (line 138), while
`beta`, `doubling_time_t`, `r_t` and `r_naught` (lines 139–143) are the
pre-calibration locals of lines 72–85, computed from the absent doubling
time. -/
def dateBranch (p : Parameters) (nds : ℤ) : SimSirModel where
  susceptible := susceptible0 p
  infected := seed_infected p
  recovered := p.recovered
  beta := beta0 p
  gamma := gamma0 p
  intrinsic_growth_rate := fitted_growth_rate p nds
  r_t := r_t0 p
  r_naught := r_naught0 p
  doubling_time_t := doubling_time_t0 p
  i_day := nds
  n_days_since := some nds
  doubling_time := some (fitted_doubling_time p nds)
  raw_df := (date_proj p nds).raw_df
  admits_hosp := (date_proj p nds).admits_hosp
  census_hosp := (date_proj p nds).census_hosp

/-- `SimSirModel.__init__` (models.py lines 100–145): branch selection on
which of the two optional calibration inputs is present; both present or
both absent raises the line-145 `AssertionError`.  Lean's total real
division stands in for Python float division; the spec's Parameters
positivity invariants (market share, rates, population) keep the two equal
on valid inputs. -/
def simSirModel (p : Parameters) : Except String SimSirModel :=
  match p.date_first_hospitalized, p.doubling_time with
  | none, some _ => Except.ok (dtBranch p)
  | some nds, none => Except.ok (dateBranch p nds)
  | _, _ => Except.error ("doubling_time or date_first_hospitalized must be provided.")

/-- A concrete doubling-time-mode parameter set: 4 current hospitalized
patients, full market share, hospitalization rate 1/2. -/
def P1c : Parameters :=
  { population := 100, current_hospitalized := 4, market_share := 1, recovered := 0,
    doubling_time := some 4, date_first_hospitalized := none, relative_contact_rate := 0,
    infectious_days := 14, n_days := 7, hospitalized_rate := 1/2,
    hospitalized_length_of_stay := 7 }

/-- A doubling-time-mode parameter set with a nonzero relative contact
rate (1/2) and unit doubling time: growth rate 1, gamma 1, initial
susceptible 1. -/
def P3c : Parameters :=
  { population := 3, current_hospitalized := 1, market_share := 1, recovered := 0,
    doubling_time := some 1, date_first_hospitalized := none, relative_contact_rate := 1/2,
    infectious_days := 1, n_days := 7, hospitalized_rate := 1/2,
    hospitalized_length_of_stay := 7 }

/-- A doubling-time-mode parameter set driving the effective-doubling-time
logarithm's argument negative: growth rate 1, gamma 2, susceptible 1 and
relative contact rate 9/10 give beta·susceptible − gamma + 1 = −7/10. -/
def P7c : Parameters :=
  { population := 3, current_hospitalized := 1, market_share := 1, recovered := 0,
    doubling_time := some 1, date_first_hospitalized := none, relative_contact_rate := 9/10,
    infectious_days := 1/2, n_days := 7, hospitalized_rate := 1/2,
    hospitalized_length_of_stay := 7 }

/-- A concrete date-first-hospitalized-mode parameter set: first
hospitalization 3 days before the current date, nonzero relative contact
rate. -/
def P4c : Parameters :=
  { population := 100, current_hospitalized := 4, market_share := 1, recovered := 0,
    doubling_time := none, date_first_hospitalized := some 3, relative_contact_rate := 1/2,
    infectious_days := 14, n_days := 7, hospitalized_rate := 1/2,
    hospitalized_length_of_stay := 7 }

/-- Evaluation of `getD` over a mapped range. -/
lemma rangeMap_getD {α : Type} (f : ℕ → α) (n k : ℕ) (d : α) :
    ((List.range n).map f).getD k d = if k < n then f k else d := by
  rw [List.getD_eq_getElem?_getD, List.getElem?_map]
  by_cases h : k < n
  · rw [List.getElem?_range h]
    simp [h]
  · rw [List.getElem?_eq_none (by simpa using le_of_not_lt h)]
    simp [h]

lemma getD_eq_none_of_le {α : Type} (xs : List (Option α)) (k : ℕ) (h : xs.length ≤ k) :
    xs.getD k none = none := by
  rw [List.getD_eq_getElem?_getD, List.getElem?_eq_none h]
  rfl

lemma take_getD (xs : List (Option ℝ)) (m k : ℕ) :
    (xs.take m).getD k none = if k < m then xs.getD k none else none := by
  rw [List.getD_eq_getElem?_getD, List.getElem?_take]
  by_cases h : k < m <;> simp [h, List.getD_eq_getElem?_getD]

lemma sub?_none_left (b : Option ℝ) : sub? none b = none := by
  cases b <;> rfl

lemma sub?_none_right (a : Option ℝ) : sub? a none = none := by
  cases a <;> rfl

lemma alignSub_length (a b : List (Option ℝ)) :
    (alignSub a b).length = max a.length b.length := by
  simp [alignSub]

lemma alignSub_getD (a b : List (Option ℝ)) (k : ℕ) :
    (alignSub a b).getD k none = sub? (a.getD k none) (b.getD k none) := by
  rw [alignSub, rangeMap_getD]
  by_cases hk : k < max a.length b.length
  · simp [hk]
  · push_neg at hk
    rw [if_neg (not_lt.mpr hk)]
    rw [getD_eq_none_of_le a k (le_trans (le_max_left _ _) hk)]
    exact (sub?_none_left _).symm

lemma shift_length (n : ℕ) (xs : List (Option ℝ)) : (shift n xs).length = xs.length := by
  simp [shift]

lemma shift_getD (n : ℕ) (xs : List (Option ℝ)) (k : ℕ) (hk : k < xs.length) :
    (shift n xs).getD k none = if k < n then none else xs.getD (k - n) none := by
  rw [shift, rangeMap_getD, if_pos hk]

lemma fillna0_length (xs : List (Option ℝ)) : (fillna0 xs).length = xs.length := by
  simp [fillna0]

lemma fillna0_getD (xs : List (Option ℝ)) (k : ℕ) (hk : k < xs.length) :
    (fillna0 xs).getD k none = some ((xs.getD k none).getD 0) := by
  rw [fillna0, List.getD_eq_getElem?_getD, List.getElem?_map,
    List.getElem?_eq_getElem hk]
  simp [List.getD_eq_getElem?_getD, List.getElem?_eq_getElem hk]

lemma cumsumFrom_length (acc : ℝ) (xs : List (Option ℝ)) :
    (cumsumFrom acc xs).length = xs.length := by
  induction xs generalizing acc with
  | nil => rfl
  | cons x t ih =>
    cases x <;> simp [cumsumFrom, ih]

lemma cumsum_length (xs : List (Option ℝ)) : (cumsum xs).length = xs.length :=
  cumsumFrom_length 0 xs

lemma cumsumFrom_map_some_getD (xs : List ℝ) (acc : ℝ) (k : ℕ) (hk : k < xs.length) :
    (cumsumFrom acc (xs.map some)).getD k none = some (acc + (xs.take (k + 1)).sum) := by
  induction xs generalizing acc k with
  | nil => simp at hk
  | cons x t ih =>
    cases k with
    | zero => simp [cumsumFrom]
    | succ m =>
      have hm : m < t.length := by simpa using hk
      simp only [List.map_cons, cumsumFrom, List.getD_cons_succ, List.take_succ_cons,
        List.sum_cons, ih (acc + x) m hm]
      rw [add_assoc]

lemma cumsum_map_some_getD (xs : List ℝ) (k : ℕ) (hk : k < xs.length) :
    (cumsum (xs.map some)).getD k none = some ((xs.take (k + 1)).sum) := by
  rw [cumsum, cumsumFrom_map_some_getD xs 0 k hk, zero_add]

lemma map_np_ceil_getD (xs : List (Option ℝ)) (k : ℕ) (hk : k < xs.length) :
    (xs.map np_ceil).getD k none = np_ceil (xs.getD k none) := by
  rw [List.getD_eq_getElem?_getD, List.getElem?_map, List.getElem?_eq_getElem hk]
  simp [List.getD_eq_getElem?_getD, List.getElem?_eq_getElem hk]

lemma np_ceil_isSome (a : Option ℝ) : (np_ceil a).isSome = a.isSome := by
  cases a <;> rfl

lemma sub?_isSome (a b : Option ℝ) : (sub? a b).isSome = (a.isSome && b.isSome) := by
  cases a <;> cases b <;> rfl

lemma length_filter_range_lt (n m : ℕ) :
    ((List.range n).filter fun k => decide (k < m)).length = min m n := by
  induction n with
  | zero => simp
  | succ t ih =>
    rw [List.range_succ, List.filter_append, List.length_append, ih]
    by_cases h : t < m
    · simp only [List.filter_cons, List.filter_nil, decide_eq_true h, if_pos]
      simp
      omega
    · simp only [List.filter_cons, List.filter_nil]
      rw [if_neg (by simpa using h)]
      simp
      omega

/-- The first yielded trajectory row is the starting state at day `i_day`. -/
lemma gen_sir_head (s i r beta gamma : ℝ) (n_days i_day : ℤ) :
    (gen_sir s i r beta gamma n_days i_day).head? = some ⟨i_day, s, i, r⟩ := by
  rw [gen_sir]
  cases n_days.toNat with
  | zero => rfl
  | succ k => rfl

/-- The raw trajectory a projection builds starts at day `-i_day` in the
state handed to `run_projection`. -/
lemma run_projection_raw_head (p : Parameters) (susceptible infected beta gamma : ℝ)
    (i_day : ℤ) :
    (run_projection p susceptible infected beta gamma i_day).raw_df.head? =
      some ⟨-i_day, susceptible, infected, p.recovered⟩ :=
  gen_sir_head susceptible infected p.recovered beta gamma ((p.n_days : ℤ) + i_day) (-i_day)

/-- A unit doubling time gives growth rate 2^1 − 1 = 1. -/
lemma get_growth_rate_one : get_growth_rate (some 1) = 1 := by
  rw [get_growth_rate, if_neg one_ne_zero]
  norm_num [Real.rpow_one]

/-- Branch reduction: exactly a doubling time supplied. -/
lemma simSirModel_dt (p : Parameters) (t : ℝ) (hd : p.date_first_hospitalized = none)
    (ht : p.doubling_time = some t) : simSirModel p = Except.ok (dtBranch p) := by
  unfold simSirModel
  rw [hd, ht]

/-- Branch reduction: exactly a first-hospitalization date supplied. -/
lemma simSirModel_date (p : Parameters) (nds : ℤ) (hd : p.date_first_hospitalized = some nds)
    (ht : p.doubling_time = none) : simSirModel p = Except.ok (dateBranch p nds) := by
  unfold simSirModel
  rw [hd, ht]

/-- The raw SIR update preserves the compartment sum identically. -/
lemma sir_raw_sum (s i r beta gamma : ℝ) :
    (-beta * s * i + s) + (beta * s * i - gamma * i + i) + (gamma * i + r) = s + i + r := by
  ring

/-- When the input state sums to `n ≠ 0`, the rescale is the identity and
`sir` returns the plain update. -/
lemma sir_eq_of_sum_eq (s i r beta gamma n : ℝ) (hn : s + i + r = n) (h0 : n ≠ 0) :
    sir s i r beta gamma n = (s - beta * s * i, i + beta * s * i - gamma * i, r + gamma * i) := by
  have hsum : (-beta * s * i + s) + (beta * s * i - gamma * i + i) + (gamma * i + r) = n := by
    rw [sir_raw_sum, hn]
  simp only [sir, hsum, div_self h0, mul_one, Prod.mk.injEq]
  refine ⟨by ring, by ring, by ring⟩

/-- The output of `sir` sums to `n` whenever the input does. -/
lemma sir_sum_eq (s i r beta gamma n : ℝ) (hn : s + i + r = n) (h0 : n ≠ 0) :
    (sir s i r beta gamma n).1 + (sir s i r beta gamma n).2.1 + (sir s i r beta gamma n).2.2
      = n := by
  rw [sir_eq_of_sum_eq s i r beta gamma n hn h0]
  simp only []
  rw [← hn]
  ring

/-- Conservation along the generator loop. -/
lemma gen_sir_from_sum (beta gamma n : ℝ) (h0 : n ≠ 0) :
    ∀ (k : ℕ) (d : ℤ) (s i r : ℝ), s + i + r = n →
      ∀ row ∈ gen_sir_from beta gamma n k d s i r,
        row.susceptible + row.infected + row.recovered = n := by
  intro k
  induction k with
  | zero =>
    intro d s i r hsum row hrow
    simp only [gen_sir_from, List.mem_singleton] at hrow
    subst hrow
    exact hsum
  | succ m ih =>
    intro d s i r hsum row hrow
    simp only [gen_sir_from, List.mem_cons] at hrow
    rcases hrow with h | h
    · subst h; exact hsum
    · have hnext : (sir s i r beta gamma n).1 + (sir s i r beta gamma n).2.1
          + (sir s i r beta gamma n).2.2 = n := sir_sum_eq s i r beta gamma n hsum h0
      exact ih (d + 1) (sir s i r beta gamma n).1 (sir s i r beta gamma n).2.1
        (sir s i r beta gamma n).2.2 hnext row h

/-- C2: for every starting state summing to `N > 0` and every `beta`,
`gamma`, every row of the generated trajectory has
susceptible + infected + recovered = N (exactly, in the exact-arithmetic
embedding of the float code). -/
theorem C2_trajectory_conserves_population
    (s i r beta gamma N : ℝ) (n_days i_day : ℤ)
    (hsum : s + i + r = N) (hpos : 0 < N) :
    ∀ row ∈ gen_sir s i r beta gamma n_days i_day,
      row.susceptible + row.infected + row.recovered = N := by
  intro row hrow
  have h0 : N ≠ 0 := ne_of_gt hpos
  have := gen_sir_from_sum beta gamma (s + i + r) (by rw [hsum]; exact h0)
    n_days.toNat i_day s i r rfl row
  rw [hsum] at this
  exact this (by simpa [gen_sir, hsum] using hrow)

/-- Witness for C2 at a concrete input: applied to the first row of the
day-5 trajectory from (1, 1, 1) with beta = 2, gamma = 3. -/
theorem C2_trajectory_conserves_population_witness :
    (⟨0, 1, 1, 1⟩ : SirRow).susceptible + (⟨0, 1, 1, 1⟩ : SirRow).infected
      + (⟨0, 1, 1, 1⟩ : SirRow).recovered = 3 :=
  C2_trajectory_conserves_population 1 1 1 2 3 3 5 0 (by norm_num) (by norm_num)
    ⟨0, 1, 1, 1⟩ (List.mem_cons_self _ _)

/-- C10: when the input state already sums to `n ≠ 0`, the raw SIR update
preserves the sum exactly, the rescale factor is 1, and `sir` returns
exactly the plain update. -/
theorem C10_sir_rescale_is_identity (s i r beta gamma n : ℝ)
    (hn : s + i + r = n) (h0 : n ≠ 0) :
    (-beta * s * i + s) + (beta * s * i - gamma * i + i) + (gamma * i + r) = s + i + r
    ∧ n / ((-beta * s * i + s) + (beta * s * i - gamma * i + i) + (gamma * i + r)) = 1
    ∧ sir s i r beta gamma n = (s - beta * s * i, i + beta * s * i - gamma * i, r + gamma * i) := by
  refine ⟨sir_raw_sum s i r beta gamma, ?_, sir_eq_of_sum_eq s i r beta gamma n hn h0⟩
  rw [sir_raw_sum, hn, div_self h0]

/-- Witness for C10 at the concrete state (1, 1, 1), beta = gamma = 1,
n = 3: the stepper returns the plain update exactly. -/
theorem C10_sir_rescale_is_identity_witness :
    sir 1 1 1 1 1 3 = (1 - 1 * 1 * 1, 1 + 1 * 1 * 1 - 1 * 1, 1 + 1 * 1) :=
  (C10_sir_rescale_is_identity 1 1 1 1 1 3 (by norm_num) (by norm_num)).2.2

/-- C5, as the code has it: pandas index alignment in `build_admits_df`
keeps the union of the two indexes, so the Admission Table has the same
number of rows D as the Disposition Table, not D − 1; position k for
1 ≤ k ≤ D − 2 holds the first difference disposition(k) − disposition(k−1),
while position 0 (no predecessor) and position D − 1 (removed from the left
operand by `iloc[:-1]` before alignment) are undefined (NaN). -/
theorem C5_admits_table_shape (disp : List (Option ℝ)) :
    (build_admits_df disp).length = disp.length
    ∧ (∀ k : ℕ, k + 1 < disp.length →
        (build_admits_df disp).getD k none =
          if k = 0 then none else sub? (disp.getD k none) (disp.getD (k - 1) none))
    ∧ (∀ k : ℕ, k + 1 = disp.length → (build_admits_df disp).getD k none = none) := by
  have hlen1 : (ilocDropLast 1 disp).length = disp.length - 1 := by
    simp [ilocDropLast]
  refine ⟨?_, ?_, ?_⟩
  · rw [build_admits_df, alignSub_length, hlen1, shift_length]
    omega
  · intro k hk
    rw [build_admits_df, alignSub_getD, ilocDropLast, if_neg (by norm_num), take_getD,
      if_pos (by omega), shift_getD 1 disp k (by omega)]
    rcases Nat.eq_zero_or_pos k with h0 | h0
    · subst h0
      simp [sub?_none_right]
    · rw [if_neg (by omega), if_neg (by omega)]
  · intro k hk
    rw [build_admits_df, alignSub_getD, ilocDropLast, if_neg (by norm_num), take_getD,
      if_neg (by omega), sub?_none_left]

/-- Counterexample to C5 as stated: for the 3-row disposition column
(1, 2, 4) the Admission Table has 3 rows, not 3 − 1 = 2; only the middle
row carries a defined difference, and both the earliest and the latest day
are NaN. -/
theorem C5_admits_table_counterexample :
    build_admits_df [some 1, some 2, some 4] = [none, some 1, none]
    ∧ (build_admits_df [some (1 : ℝ), some 2, some 4]).length ≠
        [some (1 : ℝ), some 2, some 4].length - 1 := by
  constructor
  · norm_num [build_admits_df, alignSub, ilocDropLast, shift, sub?, List.range_succ]
  · norm_num [build_admits_df, alignSub_length, ilocDropLast, shift_length]

/-- C6: on an Admission Table column of M defined values, the Census Table
column for a category with length of stay `los ≥ 1` has exactly M − los
defined rows (truncated subtraction: `los ≥ M` yields zero rows without
error), each equal to the running admission total up to that day minus the
running total up to `los` days earlier (zero before the start of data),
rounded up to the next integer. -/
theorem C6_census_length_contract (xs : List ℝ) (los : ℕ) (hlos : 1 ≤ los) :
    ((build_census_df (xs.map some) los).filter fun v => v.isSome).length = xs.length - los
    ∧ (build_census_df (xs.map some) los).length = xs.length
    ∧ ∀ k : ℕ, k < xs.length - los →
        (build_census_df (xs.map some) los).getD k none =
          some ((⌈(xs.take (k + 1)).sum -
            (if los ≤ k then (xs.take (k + 1 - los)).sum else 0)⌉ : ℤ) : ℝ) := by
  set M := xs.length with hM
  set c := cumsum (xs.map some) with hc
  have hclen : c.length = M := by
    rw [hc, cumsum_length, List.length_map]
  have hLlen : (ilocDropLast los c).length = M - los := by
    rw [ilocDropLast, if_neg (by omega), List.length_take, hclen]
    omega
  have hRlen : (fillna0 (shift los c)).length = M := by
    rw [fillna0_length, shift_length, hclen]
  have hL : ∀ k : ℕ, (ilocDropLast los c).getD k none =
      if k < M - los then c.getD k none else none := by
    intro k
    rw [ilocDropLast, if_neg (by omega), take_getD, hclen]
  have hR : ∀ k : ℕ, k < M → (fillna0 (shift los c)).getD k none =
      some (((if k < los then none else c.getD (k - los) none) : Option ℝ).getD 0) := by
    intro k hk
    rw [fillna0_getD _ k (by rw [shift_length, hclen]; exact hk),
      shift_getD los c k (by rw [hclen]; exact hk)]
  refine ⟨?_, ?_, ?_⟩
  · rw [build_census_df, alignSub, hLlen, hRlen, List.map_map]
    have hmax : max (M - los) M = M := by omega
    rw [hmax]
    have hcongr : List.filter (fun v => v.isSome) ((List.range M).map
          (np_ceil ∘ fun k => sub? ((ilocDropLast los c).getD k none)
            ((fillna0 (shift los c)).getD k none))) =
        List.map (np_ceil ∘ fun k => sub? ((ilocDropLast los c).getD k none)
            ((fillna0 (shift los c)).getD k none))
          (List.filter ((fun v => v.isSome) ∘ (np_ceil ∘ fun k =>
            sub? ((ilocDropLast los c).getD k none)
              ((fillna0 (shift los c)).getD k none))) (List.range M)) :=
      List.filter_map _ _
    rw [hcongr, List.length_map]
    have hpred : ∀ k ∈ List.range M,
        ((fun v => v.isSome) ∘ (np_ceil ∘ fun k =>
          sub? ((ilocDropLast los c).getD k none)
            ((fillna0 (shift los c)).getD k none))) k = decide (k < M - los) := by
      intro k hk
      have hkM : k < M := List.mem_range.mp hk
      simp only [Function.comp_apply, np_ceil_isSome, sub?_isSome, hL k, hR k hkM]
      by_cases h : k < M - los
      · rw [if_pos h, hc, cumsum_map_some_getD xs k (by omega)]
        simp [h]
      · rw [if_neg h]
        simp [h]
    rw [List.filter_congr hpred, length_filter_range_lt]
    omega
  · rw [build_census_df, List.length_map, alignSub_length, hLlen, hRlen]
    omega
  · intro k hk
    have hkM : k < M := by omega
    have hmaplen : (alignSub (ilocDropLast los c) (fillna0 (shift los c))).length = M := by
      rw [alignSub_length, hLlen, hRlen]
      omega
    rw [build_census_df, map_np_ceil_getD _ k (by rw [hmaplen]; exact hkM), alignSub_getD,
      hL k, if_pos hk, hR k hkM, hc, cumsum_map_some_getD xs k (by omega)]
    by_cases h : los ≤ k
    · rw [if_neg (by omega), if_pos h, cumsum_map_some_getD xs (k - los) (by omega)]
      have harith : k - los + 1 = k + 1 - los := by omega
      simp [sub?, np_ceil, harith]
    · rw [if_pos (by omega), if_neg h]
      simp [sub?, np_ceil]

/-- Witness for C6 at the concrete admissions column (1, 2) with length of
stay 1: exactly one defined census row. -/
theorem C6_census_length_contract_witness :
    ((build_census_df ([(1 : ℝ), 2].map some) 1).filter fun v => v.isSome).length =
      [(1 : ℝ), 2].length - 1 :=
  (C6_census_length_contract [(1 : ℝ), 2] 1 (by norm_num)).1

/-- C1, as the code has it: for every Parameters the constructor accepts,
the starting state of the projection (the first row of the raw trajectory)
has susceptible = population − current_hospitalized/market_share/rate as
claimed, but its infected value is the line-98 overwrite
1/hospitalized_rate/market_share — the infected count equivalent to one
currently hospitalized patient — not the Parameter Deriver's estimate
current_hospitalized/market_share/rate; the two agree only when
current_hospitalized = 1. -/
theorem C1_projection_initial_state (p : Parameters) (m : SimSirModel)
    (h : simSirModel p = Except.ok m) :
    m.raw_df.head? = some ⟨-m.i_day,
      p.population - p.current_hospitalized / p.market_share / p.hospitalized_rate,
      1 / p.hospitalized_rate / p.market_share, p.recovered⟩ := by
  rcases hd : p.date_first_hospitalized with _ | nds <;>
    rcases ht : p.doubling_time with _ | t
  · unfold simSirModel at h
    rw [hd, ht] at h
    exact absurd h (by simp)
  · rw [simSirModel_dt p t hd ht] at h
    injection h with hm
    subst hm
    exact run_projection_raw_head p (susceptible0 p) (seed_infected p) (beta_dt p)
      (gamma0 p) (dt_i_day p)
  · rw [simSirModel_date p nds hd ht] at h
    injection h with hm
    subst hm
    exact run_projection_raw_head p (susceptible0 p) (seed_infected p)
      (fitted_beta p nds) (gamma0 p) nds
  · unfold simSirModel at h
    rw [hd, ht] at h
    exact absurd h (by simp)

/-- Witness for C1 at the concrete doubling-time-mode parameters `P1c`. -/
theorem C1_projection_initial_state_witness :
    (dtBranch P1c).raw_df.head? = some ⟨-(dtBranch P1c).i_day,
      P1c.population - P1c.current_hospitalized / P1c.market_share / P1c.hospitalized_rate,
      1 / P1c.hospitalized_rate / P1c.market_share, P1c.recovered⟩ :=
  C1_projection_initial_state P1c (dtBranch P1c) rfl

/-- Counterexample to C1 as stated: at `P1c` (4 hospitalized, market share
1, rate 1/2) the projection starts from infected = 2, while the claimed
value current_hospitalized/market_share/rate is 8. -/
theorem C1_counterexample :
    simSirModel P1c = Except.ok (dtBranch P1c)
    ∧ (dtBranch P1c).raw_df.head?.map (fun row => row.infected) =
        some (1 / P1c.hospitalized_rate / P1c.market_share)
    ∧ 1 / P1c.hospitalized_rate / P1c.market_share ≠
        P1c.current_hospitalized / P1c.market_share / P1c.hospitalized_rate := by
  refine ⟨rfl, ?_, ?_⟩
  · rw [show (dtBranch P1c).raw_df = (dt_proj2 P1c).raw_df from rfl, dt_proj2,
      run_projection_raw_head]
    rfl
  · norm_num [P1c]

/-- C3, as the code has it: in doubling-time mode `self.beta` is assigned
once (line 103) to the undiscounted (growth_rate + gamma)/susceptible and
never reassigned, so the scanning projection and the re-anchored final
projection both run with that same undiscounted beta — the second run does
not restore the contact-rate discount. -/
theorem C3_second_run_beta_undiscounted (p : Parameters) (t : ℝ)
    (hd : p.date_first_hospitalized = none) (ht : p.doubling_time = some t) :
    simSirModel p = Except.ok (dtBranch p)
    ∧ (dtBranch p).beta = (get_growth_rate p.doubling_time + gamma0 p) / susceptible0 p
    ∧ dt_proj1 p = run_projection p (susceptible0 p) (seed_infected p)
        ((get_growth_rate p.doubling_time + gamma0 p) / susceptible0 p) (gamma0 p) 0
    ∧ dt_proj2 p = run_projection p (susceptible0 p) (seed_infected p)
        ((get_growth_rate p.doubling_time + gamma0 p) / susceptible0 p) (gamma0 p) (dt_i_day p)
    ∧ (dtBranch p).raw_df = (dt_proj2 p).raw_df :=
  ⟨simSirModel_dt p t hd ht, rfl, rfl, rfl, rfl⟩

/-- Witness for C3 at the concrete doubling-time-mode parameters `P1c`. -/
theorem C3_second_run_beta_undiscounted_witness :
    (dtBranch P1c).beta = (get_growth_rate P1c.doubling_time + gamma0 P1c) / susceptible0 P1c :=
  (C3_second_run_beta_undiscounted P1c 4 rfl rfl).2.1

/-- Counterexample to C3 as stated: at `P3c` (relative contact rate 1/2,
unit doubling time, gamma 1, susceptible 1) the final projection's beta is
the undiscounted 2, not the discounted value 1 the claim requires. -/
theorem C3_counterexample :
    simSirModel P3c = Except.ok (dtBranch P3c)
    ∧ (dtBranch P3c).raw_df = (dt_proj2 P3c).raw_df
    ∧ (dtBranch P3c).beta = (get_growth_rate P3c.doubling_time + gamma0 P3c) / susceptible0 P3c
    ∧ (dtBranch P3c).beta ≠ get_beta (get_growth_rate P3c.doubling_time) (gamma0 P3c)
        (susceptible0 P3c) P3c.relative_contact_rate := by
  refine ⟨rfl, rfl, rfl, ?_⟩
  show beta_dt P3c ≠ get_beta (get_growth_rate P3c.doubling_time) (gamma0 P3c)
    (susceptible0 P3c) P3c.relative_contact_rate
  have hg : get_growth_rate P3c.doubling_time = 1 := get_growth_rate_one
  rw [beta_dt, get_beta, hg]
  norm_num [gamma0, susceptible0, infected_estimate, P3c]

/-- C4: the date branch runs its final projection with the beta re-derived
from the fitted doubling time, but the finished model's exposed bundle
keeps the pre-calibration locals (models.py lines 138–143): only
intrinsic_growth_rate is the re-derived value, while beta, r_t, r_naught
and doubling_time_t are the values computed at lines 72–85 from the absent
doubling time (in particular growth rate 0, so the exposed r_naught is the
constant (0 + gamma)/gamma). -/
theorem C4_exposed_rates_stale (p : Parameters) (nds : ℤ)
    (hd : p.date_first_hospitalized = some nds) (ht : p.doubling_time = none) :
    simSirModel p = Except.ok (dateBranch p nds)
    ∧ (dateBranch p nds).intrinsic_growth_rate = fitted_growth_rate p nds
    ∧ (dateBranch p nds).raw_df = (run_projection p (susceptible0 p) (seed_infected p)
        (fitted_beta p nds) (gamma0 p) nds).raw_df
    ∧ (dateBranch p nds).beta = beta0 p
    ∧ (dateBranch p nds).r_t = r_t0 p
    ∧ (dateBranch p nds).r_naught = r_naught0 p
    ∧ (dateBranch p nds).doubling_time_t = doubling_time_t0 p
    ∧ beta0 p = (0 + gamma0 p) / susceptible0 p * (1 - p.relative_contact_rate)
    ∧ r_naught0 p = (0 + gamma0 p) / gamma0 p := by
  refine ⟨simSirModel_date p nds hd ht, rfl, rfl, rfl, rfl, rfl, rfl, ?_, ?_⟩
  · rw [beta0, ht]
    rfl
  · rw [r_naught0, ht]
    rfl

/-- Witness for C4 at the concrete date-mode parameters `P4c`. -/
theorem C4_exposed_rates_stale_witness :
    simSirModel P4c = Except.ok (dateBranch P4c 3) :=
  (C4_exposed_rates_stale P4c 3 rfl rfl).1

/-- C7, as the code has it: there is no guard on the effective-doubling-time
logarithm; when beta·susceptible − gamma + 1 ≤ 0 the constructor still
succeeds in either calibration mode — no error is raised — and the model
carries the silent undefined doubling_time_t (float NaN/−inf, modelled
`none`). -/
theorem C7_log2_domain_unguarded (p : Parameters)
    (harg : beta0 p * susceptible0 p - gamma0 p + 1 ≤ 0) :
    doubling_time_t0 p = none
    ∧ (∀ t, p.date_first_hospitalized = none → p.doubling_time = some t →
        simSirModel p = Except.ok (dtBranch p) ∧ (dtBranch p).doubling_time_t = none)
    ∧ (∀ nds, p.date_first_hospitalized = some nds → p.doubling_time = none →
        simSirModel p = Except.ok (dateBranch p nds)
          ∧ (dateBranch p nds).doubling_time_t = none) := by
  have h0 : doubling_time_t0 p = none := by
    rw [doubling_time_t0, np_log2, if_neg (not_lt.mpr harg)]
    rfl
  exact ⟨h0, fun t hd ht => ⟨simSirModel_dt p t hd ht, h0⟩,
    fun nds hd ht => ⟨simSirModel_date p nds hd ht, h0⟩⟩

/-- At `P7c` the logarithm's argument is −7/10. -/
lemma P7c_arg_nonpos : beta0 P7c * susceptible0 P7c - gamma0 P7c + 1 ≤ 0 := by
  have hg : get_growth_rate P7c.doubling_time = 1 := get_growth_rate_one
  rw [beta0, hg]
  norm_num [gamma0, susceptible0, infected_estimate, P7c]

/-- Witness for C7 at the concrete parameters `P7c`. -/
theorem C7_log2_domain_unguarded_witness : doubling_time_t0 P7c = none :=
  (C7_log2_domain_unguarded P7c P7c_arg_nonpos).1

/-- Counterexample to C7 as stated: at `P7c` the logarithm's argument is
−7/10 ≤ 0, yet construction succeeds (no error is raised) and the model
silently carries an undefined doubling_time_t. -/
theorem C7_counterexample :
    beta0 P7c * susceptible0 P7c - gamma0 P7c + 1 ≤ 0
    ∧ simSirModel P7c = Except.ok (dtBranch P7c)
    ∧ (dtBranch P7c).doubling_time_t = none := by
  refine ⟨P7c_arg_nonpos, rfl, ?_⟩
  show doubling_time_t0 P7c = none
  rw [doubling_time_t0, np_log2, if_neg (not_lt.mpr P7c_arg_nonpos)]
  rfl

/-- C9: constructing the model fails (with the line-145 AssertionError)
exactly when both or neither of doubling_time and date_first_hospitalized
are supplied; with exactly one supplied the matching calibration branch
runs and no mutual-exclusion error is raised. -/
theorem C9_mutual_exclusion (p : Parameters) :
    ((∃ msg, simSirModel p = Except.error msg) ↔
      ((p.doubling_time = none ∧ p.date_first_hospitalized = none)
        ∨ (p.doubling_time ≠ none ∧ p.date_first_hospitalized ≠ none)))
    ∧ (∀ t, p.date_first_hospitalized = none → p.doubling_time = some t →
        simSirModel p = Except.ok (dtBranch p))
    ∧ (∀ nds, p.date_first_hospitalized = some nds → p.doubling_time = none →
        simSirModel p = Except.ok (dateBranch p nds)) := by
  refine ⟨?_, fun t hd ht => simSirModel_dt p t hd ht,
    fun nds hd ht => simSirModel_date p nds hd ht⟩
  rcases hd : p.date_first_hospitalized with _ | nds <;>
    rcases ht : p.doubling_time with _ | t
  · constructor
    · intro _
      exact Or.inl ⟨rfl, rfl⟩
    · intro _
      exact ⟨_, by unfold simSirModel; rw [hd, ht]⟩
  · rw [simSirModel_dt p t hd ht]
    simp [ht, hd]
  · rw [simSirModel_date p nds hd ht]
    simp [ht, hd]
  · constructor
    · intro _
      exact Or.inr ⟨by simp, by simp⟩
    · intro _
      exact ⟨_, by unfold simSirModel; rw [hd, ht]⟩

/-- Specification of the `argminAux` accumulator.  When it returns
`some (j, x)`, that pair is either the incoming best or a defined entry of
the remaining list at its absolute position, `x` is a non-strict minimum of
the remaining defined entries and of the best's value, and `x` is strictly
below every remaining defined entry at an absolute position before `j` and
below the best's value whenever the best's position precedes `j`. -/
lemma argminAux_some_spec (xs : List (Option ℝ)) :
    ∀ (k0 : ℕ) (best : Option (ℕ × ℝ)),
      (∀ jb b, best = some (jb, b) → jb < k0) →
      ∀ (j : ℕ) (x : ℝ), argminAux xs k0 best = some (j, x) →
        (best = some (j, x) ∨ (k0 ≤ j ∧ j - k0 < xs.length ∧ xs.getD (j - k0) none = some x))
        ∧ (∀ k y, k < xs.length → xs.getD k none = some y → x ≤ y)
        ∧ (∀ k y, k < xs.length → k0 + k < j → xs.getD k none = some y → x < y)
        ∧ (∀ jb b, best = some (jb, b) → x ≤ b ∧ (jb < j → x < b)) := by
  induction xs with
  | nil =>
    intro k0 best hb j x h
    simp only [argminAux] at h
    refine ⟨Or.inl h, ?_, ?_, ?_⟩
    · intro k y hk
      simp at hk
    · intro k y hk
      simp at hk
    · intro jb b hbb
      rw [h] at hbb
      injection hbb with h2
      simp only [Prod.mk.injEq] at h2
      obtain ⟨rfl, rfl⟩ := h2
      exact ⟨le_refl _, fun hc => absurd hc (lt_irrefl _)⟩
  | cons hd t ih =>
    intro k0 best hb j x h
    cases hd with
    | none =>
      rw [show argminAux (none :: t) k0 best = argminAux t (k0 + 1) best from rfl] at h
      have hb' : ∀ jb b, best = some (jb, b) → jb < k0 + 1 := fun jb b hh =>
        Nat.lt_succ_of_lt (hb jb b hh)
      obtain ⟨hprov, hmin, hstrict, hvb⟩ := ih (k0 + 1) best hb' j x h
      refine ⟨?_, ?_, ?_, hvb⟩
      · rcases hprov with h1 | ⟨h1, h2, h3⟩
        · exact Or.inl h1
        · right
          refine ⟨by omega, by simp only [List.length_cons]; omega, ?_⟩
          have harith : j - k0 = (j - (k0 + 1)) + 1 := by omega
          rw [harith, List.getD_cons_succ]
          exact h3
      · intro k y hk hy
        cases k with
        | zero => simp [List.getD_cons_zero] at hy
        | succ m =>
          have hm : m < t.length := by
            simp only [List.length_cons] at hk
            omega
          rw [List.getD_cons_succ] at hy
          exact hmin m y hm hy
      · intro k y hk hkj hy
        cases k with
        | zero => simp [List.getD_cons_zero] at hy
        | succ m =>
          have hm : m < t.length := by
            simp only [List.length_cons] at hk
            omega
          rw [List.getD_cons_succ] at hy
          exact hstrict m y hm (by omega) hy
    | some v =>
      cases hbest : best with
      | none =>
        rw [hbest] at h
        rw [show argminAux (some v :: t) k0 none = argminAux t (k0 + 1) (some (k0, v))
          from rfl] at h
        have hb' : ∀ jb b, (some ((k0 : ℕ), v) : Option (ℕ × ℝ)) = some (jb, b) →
            jb < k0 + 1 := by
          intro jb b hh
          injection hh with h2
          simp only [Prod.mk.injEq] at h2
          omega
        obtain ⟨hprov, hmin, hstrict, hvb⟩ := ih (k0 + 1) (some (k0, v)) hb' j x h
        have hxv : x ≤ v ∧ (k0 < j → x < v) := hvb k0 v rfl
        refine ⟨?_, ?_, ?_, ?_⟩
        · right
          rcases hprov with h1 | ⟨h1, h2, h3⟩
          · injection h1 with h2
            simp only [Prod.mk.injEq] at h2
            obtain ⟨rfl, rfl⟩ := h2
            exact ⟨le_refl _, by simp, by simp⟩
          · refine ⟨by omega, by simp only [List.length_cons]; omega, ?_⟩
            have harith : j - k0 = (j - (k0 + 1)) + 1 := by omega
            rw [harith, List.getD_cons_succ]
            exact h3
        · intro k y hk hy
          cases k with
          | zero =>
            rw [List.getD_cons_zero] at hy
            injection hy with h2
            subst h2
            exact hxv.1
          | succ m =>
            have hm : m < t.length := by
              simp only [List.length_cons] at hk
              omega
            rw [List.getD_cons_succ] at hy
            exact hmin m y hm hy
        · intro k y hk hkj hy
          cases k with
          | zero =>
            rw [List.getD_cons_zero] at hy
            injection hy with h2
            subst h2
            exact hxv.2 (by omega)
          | succ m =>
            have hm : m < t.length := by
              simp only [List.length_cons] at hk
              omega
            rw [List.getD_cons_succ] at hy
            exact hstrict m y hm (by omega) hy
        · intro jb b hbb
          exact absurd hbb (by simp)
      | some jxb =>
        obtain ⟨jb, b⟩ := jxb
        have hjbk0 : jb < k0 := hb jb b hbest
        rw [hbest] at h
        rw [show argminAux (some v :: t) k0 (some (jb, b)) =
            if v < b then argminAux t (k0 + 1) (some (k0, v))
            else argminAux t (k0 + 1) (some (jb, b)) from rfl] at h
        by_cases hvb0 : v < b
        · rw [if_pos hvb0] at h
          have hb' : ∀ jb' b', (some ((k0 : ℕ), v) : Option (ℕ × ℝ)) = some (jb', b') →
              jb' < k0 + 1 := by
            intro jb' b' hh
            injection hh with h2
            simp only [Prod.mk.injEq] at h2
            omega
          obtain ⟨hprov, hmin, hstrict, hvb⟩ := ih (k0 + 1) (some (k0, v)) hb' j x h
          have hxv : x ≤ v ∧ (k0 < j → x < v) := hvb k0 v rfl
          have hxb : x < b := lt_of_le_of_lt hxv.1 hvb0
          refine ⟨?_, ?_, ?_, ?_⟩
          · right
            rcases hprov with h1 | ⟨h1, h2, h3⟩
            · injection h1 with h2
              simp only [Prod.mk.injEq] at h2
              obtain ⟨rfl, rfl⟩ := h2
              exact ⟨le_refl _, by simp, by simp⟩
            · refine ⟨by omega, by simp only [List.length_cons]; omega, ?_⟩
              have harith : j - k0 = (j - (k0 + 1)) + 1 := by omega
              rw [harith, List.getD_cons_succ]
              exact h3
          · intro k y hk hy
            cases k with
            | zero =>
              rw [List.getD_cons_zero] at hy
              injection hy with h2
              subst h2
              exact hxv.1
            | succ m =>
              have hm : m < t.length := by
                simp only [List.length_cons] at hk
                omega
              rw [List.getD_cons_succ] at hy
              exact hmin m y hm hy
          · intro k y hk hkj hy
            cases k with
            | zero =>
              rw [List.getD_cons_zero] at hy
              injection hy with h2
              subst h2
              exact hxv.2 (by omega)
            | succ m =>
              have hm : m < t.length := by
                simp only [List.length_cons] at hk
                omega
              rw [List.getD_cons_succ] at hy
              exact hstrict m y hm (by omega) hy
          · intro jb' b' hbb
            injection hbb with h2
            simp only [Prod.mk.injEq] at h2
            obtain ⟨rfl, rfl⟩ := h2
            exact ⟨le_of_lt hxb, fun _ => hxb⟩
        · rw [if_neg hvb0] at h
          have hbv : b ≤ v := le_of_not_lt hvb0
          have hb' : ∀ jb' b', (some (jb, b) : Option (ℕ × ℝ)) = some (jb', b') →
              jb' < k0 + 1 := by
            intro jb' b' hh
            injection hh with h2
            simp only [Prod.mk.injEq] at h2
            omega
          obtain ⟨hprov, hmin, hstrict, hvb⟩ := ih (k0 + 1) (some (jb, b)) hb' j x h
          have hxb : x ≤ b ∧ (jb < j → x < b) := hvb jb b rfl
          refine ⟨?_, ?_, ?_, ?_⟩
          · rcases hprov with h1 | ⟨h1, h2, h3⟩
            · exact Or.inl h1
            · right
              refine ⟨by omega, by simp only [List.length_cons]; omega, ?_⟩
              have harith : j - k0 = (j - (k0 + 1)) + 1 := by omega
              rw [harith, List.getD_cons_succ]
              exact h3
          · intro k y hk hy
            cases k with
            | zero =>
              rw [List.getD_cons_zero] at hy
              injection hy with h2
              subst h2
              exact le_trans hxb.1 hbv
            | succ m =>
              have hm : m < t.length := by
                simp only [List.length_cons] at hk
                omega
              rw [List.getD_cons_succ] at hy
              exact hmin m y hm hy
          · intro k y hk hkj hy
            cases k with
            | zero =>
              rw [List.getD_cons_zero] at hy
              injection hy with h2
              subst h2
              rcases hprov with h1 | ⟨h1, _, _⟩
              · injection h1 with h2'
                simp only [Prod.mk.injEq] at h2'
                omega
              · exact lt_of_lt_of_le (hxb.2 (by omega)) hbv
            | succ m =>
              have hm : m < t.length := by
                simp only [List.length_cons] at hk
                omega
              rw [List.getD_cons_succ] at hy
              exact hstrict m y hm (by omega) hy
          · intro jb' b' hbb
            injection hbb with h2
            simp only [Prod.mk.injEq] at h2
            obtain ⟨rfl, rfl⟩ := h2
            exact hxb

/-- `argmin` at a non-negative result: the position is in range, carries a
defined value that is a non-strict minimum of all defined entries, and is
strictly below every defined entry at an earlier position. -/
lemma argmin_spec (xs : List (Option ℝ)) (j : ℕ) (h : argmin xs = (j : ℤ)) :
    j < xs.length
    ∧ ∃ x, xs.getD j none = some x
        ∧ (∀ k y, xs.getD k none = some y → x ≤ y)
        ∧ (∀ k, k < j → ∀ y, xs.getD k none = some y → x < y) := by
  rw [argmin] at h
  cases hres : argminAux xs 0 none with
  | none =>
    rw [hres] at h
    simp only [] at h
    omega
  | some jx =>
    obtain ⟨j', x⟩ := jx
    rw [hres] at h
    simp only [] at h
    have hj : j' = j := by exact_mod_cast h
    subst hj
    obtain ⟨hprov, hmin, hstrict, -⟩ := argminAux_some_spec xs 0 none (by simp) j' x hres
    rcases hprov with h1 | ⟨-, h2, h3⟩
    · exact absurd h1 (by simp)
    · rw [Nat.sub_zero] at h2 h3
      refine ⟨h2, x, h3, ?_, ?_⟩
      · intro k y hy
        by_cases hk : k < xs.length
        · exact hmin k y hk hy
        · rw [getD_eq_none_of_le xs k (le_of_not_lt hk)] at hy
          exact absurd hy (by simp)
      · intro k hkj y hy
        exact hstrict k y (by omega) (by omega) hy

/-- C8: the calibration grid is exactly the 29 evenly spaced doubling times
1, 1.5, …, 15 (strictly increasing); `pd.Series(losses).argmin()` returns
the position of the minimal defined loss, the first such position on exact
ties — hence, the grid being increasing, the lower doubling time — and the
loop adopts `dts[argmin]`. -/
theorem C8_calibration_grid_and_selection :
    dts.length = 29
    ∧ (∀ k : ℕ, k < 29 → dts.getD k 0 = 1 + (k : ℝ) / 2)
    ∧ (∀ k j : ℕ, k < j → j < 29 → dts.getD k 0 < dts.getD j 0)
    ∧ (∀ losses : List (Option ℝ), ∀ j : ℕ, argmin losses = (j : ℤ) →
        j < losses.length
        ∧ ∃ x, losses.getD j none = some x
            ∧ (∀ k y, losses.getD k none = some y → x ≤ y)
            ∧ (∀ k, k < j → ∀ y, losses.getD k none = some y → x < y))
    ∧ (∀ p : Parameters, ∀ nds : ℤ, (calibration_losses p nds).length = 29
        ∧ ∀ j : ℕ, argmin (calibration_losses p nds) = (j : ℤ) →
            fitted_doubling_time p nds = dts.getD j 0) := by
  have hlen : dts.length = 29 := by simp [dts, linspace]
  have hval : ∀ k : ℕ, k < 29 → dts.getD k 0 = 1 + (k : ℝ) / 2 := by
    intro k hk
    rw [dts, linspace, rangeMap_getD, if_pos hk]
    push_cast
    ring
  refine ⟨hlen, hval, ?_, fun losses j h => argmin_spec losses j h, ?_⟩
  · intro k j hkj hj
    rw [hval k (by omega), hval j hj]
    have hc : (k : ℝ) < (j : ℝ) := by exact_mod_cast hkj
    linarith
  · intro p nds
    refine ⟨by simp [calibration_losses, hlen], ?_⟩
    intro j hj
    rw [fitted_doubling_time, hj, npGet, if_neg (by omega), Int.toNat_natCast]

end

end PennChime
